import Mathlib

/-!
Shallow embedding of the Design Builder plugin (`design_builder` /
`nautobot_design_builder`) used to check the natural-language specification
against the code.

The embedding covers:
  * the contrib extension classes of `design_builder/contrib/ext.py`
    (`LookupMixin`, `LookupExtension`, `CableConnectionExtension`,
    `NextPrefixExtension`, `ChildPrefixExtension`, `BGPPeeringExtension`);
  * the signal handlers of `nautobot_design_builder/signals.py`
    (`create_design_instance_statuses`, `create_design_model`);
  * a model of the Journal / Deployment change-tracking described by the
    specification (those ORM models are not part of the source tree given
    here, so they are modelled from the specification's words).

Python values appearing in design dictionaries are embedded as `PVal`;
Python exceptions as `PyErr`; Django ORM querysets as lists of `Obj` rows;
dictionaries as association lists in insertion order (YAML mappings and
Python dicts have unique keys, and all operations below consistently use
first-occurrence semantics).
-/

namespace DesignBuilder

/-- A Python value as it can appear in a design dictionary after YAML parsing
and reference resolution: `None`, strings, integers, nested dictionaries and
lists, references to saved ORM rows (`vobj`, by primary key), and in-progress
`ModelInstance` wrappers (`vinst`, carrying the primary key of the wrapped
row: `hasattr(value, "instance")` is true exactly of these). -/
inductive PVal where
  | vnone : PVal
  | vstr (s : String) : PVal
  | vint (n : Int) : PVal
  | vdict (entries : List (String × PVal)) : PVal
  | vlist (xs : List PVal) : PVal
  | vobj (id : Nat) : PVal
  | vinst (id : Nat) : PVal

mutual
/-- Structural equality test on `PVal` (Python `==` on these values). -/
def PVal.beq : PVal → PVal → Bool
  | .vnone, .vnone => true
  | .vstr a, .vstr b => a == b
  | .vint a, .vint b => a == b
  | .vdict a, .vdict b => PVal.beqEntries a b
  | .vlist a, .vlist b => PVal.beqList a b
  | .vobj a, .vobj b => a == b
  | .vinst a, .vinst b => a == b
  | _, _ => false

/-- Pointwise equality of `PVal` lists. -/
def PVal.beqList : List PVal → List PVal → Bool
  | [], [] => true
  | x :: xs, y :: ys => PVal.beq x y && PVal.beqList xs ys
  | _, _ => false

/-- Pointwise equality of dictionaries in order. -/
def PVal.beqEntries : List (String × PVal) → List (String × PVal) → Bool
  | [], [] => true
  | x :: xs, y :: ys => x.1 == y.1 && PVal.beq x.2 y.2 && PVal.beqEntries xs ys
  | _, _ => false
end

instance : BEq PVal := ⟨PVal.beq⟩

/-- The distinct `DesignImplementationError` messages raised by the embedded
functions.  Each constructor corresponds to one literal message in
`design_builder/contrib/ext.py`; `message` below recovers the text. -/
inductive DesignErr where
  | noMatching (modelName : String)
  | multipleMatch (modelName : String)
  | couldNotFindModelClass (modelName : String)
  | noAttributeGiven
  | noQueryAttribute
  | lookupRequiresQuery
  | noStatusForCable
  | nextPrefixDictRequired
  | lengthRequired
  | noSearchCriteria
  | prefixesStringOrList
  | noAvailable
  | childPrefixDictRequired
  | parentRequired
  | parentObjectOrString
  | offsetRequired
  | offsetMustBeString
  | bgpEndpointsRequired
  deriving Repr, DecidableEq

/-- The message text of each `DesignImplementationError`, as written in
`design_builder/contrib/ext.py`. -/
def DesignErr.message : DesignErr → String
  | .noMatching m => "no " ++ m ++ " matching query"
  | .multipleMatch m => "Multiple " ++ m ++ " objects match query"
  | .couldNotFindModelClass m => "Could not find model class for " ++ m
  | .noAttributeGiven => "No attribute given for the \"!lookup\" tag."
  | .noQueryAttribute => "No query attribute was given"
  | .lookupRequiresQuery => "the lookup requires a query attribute and value or a query dictionary."
  | .noStatusForCable => "No status given for cable connection"
  | .nextPrefixDictRequired => "the next_prefix tag requires a dictionary of arguments"
  | .lengthRequired => "the next_prefix tag requires a prefix length"
  | .noSearchCriteria => "no search criteria specified for prefixes"
  | .prefixesStringOrList => "Prefixes should be a string (single prefix) or a list."
  | .noAvailable => "No available prefixes could be found"
  | .childPrefixDictRequired => "the child_prefix tag requires a dictionary of arguments"
  | .parentRequired => "the child_prefix tag requires a parent"
  | .parentObjectOrString => "parent prefix must be either a previously created object or a string."
  | .offsetRequired => "the child_prefix tag requires an offset"
  | .offsetMustBeString => "offset must be string"
  | .bgpEndpointsRequired => "bgp peerings must be supplied a dictionary with `endpoint_a` and `endpoint_z`."

/-- A Python exception escaping one of the embedded functions:
`DesignImplementationError`, the Django ORM exceptions `DoesNotExist` /
`MultipleObjectsReturned` (tagged with the model name), `UnboundLocalError`,
`AttributeError`, `ValueError`, `TypeError`, `KeyError`, and netaddr's
`AddrFormatError`. -/
inductive PyErr where
  | designError (e : DesignErr)
  | doesNotExist (modelName : String)
  | multipleObjectsReturned (modelName : String)
  | unboundLocal
  | attributeError
  | valueError
  | typeError
  | keyError (key : String)
  | addrFormatError
  deriving Repr, DecidableEq

/-- `isinstance(v, str)`. -/
def PVal.isStr : PVal → Bool
  | .vstr _ => true
  | _ => false

/-- `isinstance(v, dict)`. -/
def PVal.isDict : PVal → Bool
  | .vdict _ => true
  | _ => false

/-- `isinstance(v, list)`. -/
def PVal.isList : PVal → Bool
  | .vlist _ => true
  | _ => false

/-- `v is None`. -/
def PVal.isNone : PVal → Bool
  | .vnone => true
  | _ => false

/-- Python `s.startswith(p)` (computed on the character list so that it
evaluates by reduction). -/
def strStartsWith (s pre : String) : Bool := pre.data.isPrefixOf s.data

/-- Python `s[n:]` (computed on the character list). -/
def strDrop (s : String) (n : Nat) : String := ⟨s.data.drop n⟩

/-! ### Dictionaries as association lists -/

/-- `d[k]` on a Python dict: the value of the first (only) entry named `k`. -/
def dictGet (entries : List (String × PVal)) (key : String) : Option PVal :=
  (entries.find? (fun kv => kv.1 == key)).map (fun kv => kv.2)

/-- `d.pop(k, None)`: the popped value (none when absent) and the dictionary
with the first entry named `k` removed, in order. -/
def popKey (entries : List (String × PVal)) (key : String) :
    Option PVal × List (String × PVal) :=
  match entries with
  | [] => (none, [])
  | kv :: rest =>
    if kv.1 == key then (some kv.2, rest)
    else
      let r := popKey rest key
      (r.1, kv :: r.2)

/-! ### ORM rows and queryset `get`

A saved ORM row is an `Obj`: a primary key plus a field dictionary.
`queryset.get(**query)` filters the rows by the query and demands a unique
match, raising `DoesNotExist` / `MultipleObjectsReturned` otherwise. -/

/-- A saved ORM row: primary key and field values. -/
structure Obj where
  id : Nat
  fields : List (String × PVal)

/-- Field access used by query matching. -/
def Obj.fieldGet (o : Obj) (key : String) : Option PVal :=
  (o.fields.find? (fun kv => kv.1 == key)).map (fun kv => kv.2)

/-- A row satisfies a query when every query item equals the row's field. -/
def matchesQuery (o : Obj) (query : List (String × PVal)) : Bool :=
  query.all (fun kv => o.fieldGet kv.1 == some kv.2)

/-- `queryset.get(**query)` for the queryset of all rows `objs` of a model:
the unique matching row, `DoesNotExist` when none matches,
`MultipleObjectsReturned` when several do. -/
def qsGet (modelName : String) (objs : List Obj) (query : List (String × PVal)) :
    Except PyErr Obj :=
  match objs.filter (fun o => matchesQuery o query) with
  | [] => .error (.doesNotExist modelName)
  | [o] => .ok o
  | _ :: _ :: _ => .error (.multipleObjectsReturned modelName)

/-! ### C1 — contrib extension classes and their `attribute_tag`s

`design_builder/contrib/ext.py` declares exactly five `Extension`
subclasses; each carries a class attribute `attribute_tag` used by the
extension dispatch to map a custom YAML tag to its resolution function. -/

/-- One `Extension` subclass declaration: class name and `attribute_tag`. -/
structure ExtensionDecl where
  className : String
  attributeTag : String
  deriving Repr, DecidableEq

/-- The `Extension` subclasses declared in `design_builder/contrib/ext.py`,
in source order, with their `attribute_tag` class attributes.  (`LookupMixin`
is not an `Extension` subclass and carries no tag.) -/
def contribExtensions : List ExtensionDecl :=
  [ ⟨"LookupExtension", "lookup"⟩,
    ⟨"CableConnectionExtension", "connect_cable"⟩,
    ⟨"NextPrefixExtension", "next_prefix"⟩,
    ⟨"ChildPrefixExtension", "child_prefix"⟩,
    ⟨"BGPPeeringExtension", "bgp_peering"⟩ ]

/-- Number of contrib extension classes registering a given tag. -/
def tagCount (tag : String) : Nat :=
  (contribExtensions.filter (fun e => e.attributeTag == tag)).length

/-! ### C3 / C10 — `LookupMixin.lookup` and `lookup_by_content_type`

`LookupMixin.lookup` first replaces every query value that has an
`instance` attribute (an in-progress `ModelInstance`) by that instance,
then runs `queryset.get(**query)` and converts the two ORM exceptions into
`DesignImplementationError`s. -/

/-- `if hasattr(value, "instance"): query[key] = value.instance`. -/
def resolveInstance : PVal → PVal
  | .vinst i => .vobj i
  | v => v

/-- `LookupMixin.lookup(queryset, query)`, for the queryset of all rows
`objs` of the model named `modelName`. -/
def LookupMixin.lookup (modelName : String) (objs : List Obj)
    (query : List (String × PVal)) : Except PyErr Obj :=
  let q := query.map (fun kv => (kv.1, resolveInstance kv.2))
  match qsGet modelName objs q with
  | .ok o => .ok o
  | .error (.doesNotExist m) => .error (.designError (.noMatching m))
  | .error (.multipleObjectsReturned m) => .error (.designError (.multipleMatch m))
  | .error e => .error e

/-- The query after `ModelInstance` resolution inside `LookupMixin.lookup`. -/
def resolvedQuery (query : List (String × PVal)) : List (String × PVal) :=
  query.map (fun kv => (kv.1, resolveInstance kv.2))

/-- The rows a `LookupMixin.lookup` call matches: the queryset filtered by
the resolved query. -/
def lookupFilter (objs : List Obj) (query : List (String × PVal)) : List Obj :=
  objs.filter (fun o => matchesQuery o (resolvedQuery query))

/-- The content-type registry (`ContentType.objects`): natural key
`(app_label, model)` to the model's name and queryset of all rows. -/
structure CTEntry where
  appLabel : String
  modelName : String
  objs : List Obj

/-- `ContentType.objects.get_by_natural_key(app_label, model)`. -/
def ctGetByNaturalKey (reg : List CTEntry) (appLabel modelName : String) :
    Option CTEntry :=
  reg.find? (fun ct => ct.appLabel == appLabel && ct.modelName == modelName)

/-- `LookupMixin.lookup_by_content_type(app_label, model_name, query)`.

The Python body runs, inside a `try`, the statements
`content_type = ContentType.objects.get_by_natural_key(...)`,
`model_class = content_type.model_class()`, `queryset = model_class.objects`;
the `except ContentType.DoesNotExist` handler raises
`DesignImplementationError(f"Could not find model class for {model_class}")`.
When `get_by_natural_key` raises, control reaches the handler before the
assignment to the local variable `model_class` has run, so the handler's
read of `model_class` is modelled by reading the pre-`try` binding of that
local, which is still unbound (`none`), raising `UnboundLocalError`. -/
def LookupMixin.lookup_by_content_type (reg : List CTEntry)
    (appLabel modelName : String) (query : List (String × PVal)) :
    Except PyErr Obj :=
  let modelClassLocal : Option String := none
  match ctGetByNaturalKey reg appLabel modelName with
  | some ct =>
    LookupMixin.lookup ct.modelName ct.objs query
  | none =>
    match modelClassLocal with
    | some mc => .error (.designError (.couldNotFindModelClass mc))
    | none => .error .unboundLocal

/-- The per-model-class data `LookupExtension.attribute` reads from the
in-progress `ModelInstance`'s model class: for a relation attribute name,
the `(app_label, model_name)` of `getattr(model_class, attr).field.related_model`. -/
structure LookupMI where
  relatedModels : List (String × (String × String))

/-- `LookupExtension.attribute(*args, value, model_instance)`. -/
def LookupExtension.attributeImpl (reg : List CTEntry) (mi : LookupMI)
    (args : List String) (value : PVal) : Except PyErr (String × Obj) :=
  match args with
  | [] => .error (.designError .noAttributeGiven)
  | attr :: restArgs =>
    let queryE : Except PyErr (List (String × PVal)) :=
      match value with
      | .vstr s =>
        match restArgs with
        | [] => .error (.designError .noQueryAttribute)
        | qattr :: _ => .ok [(qattr, .vstr s)]
      | .vdict d => .ok d
      | _ => .error (.designError .lookupRequiresQuery)
    match queryE with
    | .error e => .error e
    | .ok query0 =>
      let (contentType, query) := popKey query0 "content-type"
      let keyE : Except PyErr (String × String) :=
        match contentType with
        | none | some .vnone =>
          match (mi.relatedModels.find? (fun kv => kv.1 == attr)).map (fun kv => kv.2) with
          | some key => .ok key
          | none => .error .attributeError
        | some (.vstr ct) =>
          match ct.splitOn "." with
          | [a, m] => .ok (a, m)
          | _ => .error .valueError
        | some _ => .error .attributeError
      match keyE with
      | .error e => .error e
      | .ok (appLabel, modelName) =>
        match LookupMixin.lookup_by_content_type reg appLabel modelName query with
        | .ok o => .ok (attr, o)
        | .error e => .error e

/-! ### C4 / C5 — `CableConnectionExtension.attribute`

The in-progress `ModelInstance` of the `!connect_cable` tag is embedded as
`MI`: primary key of the wrapped row, model class name, attribute
dictionary, the `deferred` list of attribute names whose creation is
delayed until after the instance itself is saved, and `deferred_attributes`
mapping each deferred name to the sub-instances to create then.  A deferred
sub-instance (`model_instance.__class__(self.object_creator, model_class=...,
attributes=...)`) is recorded as `MISpec`: its model class and attribute
dictionary; the `termination_a` attribute holding the in-progress endpoint
`ModelInstance` itself is recorded as `PVal.vinst` of the endpoint's key. -/

/-- A deferred sub-`ModelInstance`: model class and attribute dictionary. -/
structure MISpec where
  modelClass : String
  attributes : List (String × PVal)

/-- The in-progress `ModelInstance` the extension mutates. -/
structure MI where
  id : Nat
  modelClass : String
  attributes : List (String × PVal)
  deferred : List String
  deferredAttributes : List (String × List MISpec)

/-- `d[k] = v` on the `deferred_attributes` dictionary. -/
def setDeferred (entries : List (String × List MISpec)) (key : String)
    (v : List MISpec) : List (String × List MISpec) :=
  match entries with
  | [] => [(key, v)]
  | kv :: rest =>
    if kv.1 == key then (key, v) :: rest else kv :: setDeferred rest key v

/-- The status-resolution block of `CableConnectionExtension.attribute`:
`query = {**value}; status = query.pop("status", None)`; when `None`, scan
the remaining keys in order for the first one starting with `status__` and
look the status up by the rest of that key; when a dict, look the status up
by it; when a `ModelInstance`, take its `instance`; any other non-`None`
value is kept as is.  Returns the resolved status (as a `PVal`, `none` when
still `None`) and the remaining query. -/
def resolveCableStatus (statusObjs : List Obj) (value : List (String × PVal)) :
    Except PyErr (Option PVal × List (String × PVal)) :=
  let (statusRaw, query) := popKey value "status"
  match statusRaw with
  | none | some .vnone =>
    match query.find? (fun kv => strStartsWith kv.1 "status__") with
    | some kv =>
      let statusLookup := strDrop kv.1 8
      match qsGet "Status" statusObjs [(statusLookup, kv.2)] with
      | .ok st => .ok (some (.vobj st.id), (popKey query kv.1).2)
      | .error e => .error e
    | none => .ok (none, query)
  | some (.vdict d) =>
    match qsGet "Status" statusObjs d with
    | .ok st => .ok (some (.vobj st.id), query)
    | .error e => .error e
  | some (.vinst i) => .ok (some (.vobj i), query)
  | some v => .ok (some v, query)

/-- `ContentType.objects.get_for_model(remote_instance)`: the content type
of the remote termination, identified here by its model class name (the
remote row comes from `model_instance.model_class.objects`). -/
def contentTypeForModel (modelClass : String) : String := modelClass

/-- `CableConnectionExtension.attribute(value, model_instance)`.

`objs` is `model_instance.model_class.objects` (all saved rows of the
endpoint's model) and `statusObjs` is `Status.objects`.  On success the
function returns the mutated `model_instance` and the Python return value,
which is always `None` (the cable is not constructed now: it is recorded
under `deferred_attributes["cable"]`). -/
def cableConnectionAttribute (statusObjs objs : List Obj)
    (value : List (String × PVal)) (mi : MI) :
    Except PyErr (MI × Option (String × PVal)) :=
  match resolveCableStatus statusObjs value with
  | .error e => .error e
  | .ok (none, _) => .error (.designError .noStatusForCable)
  | .ok (some status, query) =>
    match LookupMixin.lookup mi.modelClass objs query with
    | .error e => .error e
    | .ok remote =>
      let cable : MISpec :=
        { modelClass := "Cable"
          attributes :=
            [ ("status", status),
              ("termination_a", .vinst mi.id),
              ("!create_or_update:termination_b_type",
                .vstr (contentTypeForModel mi.modelClass)),
              ("!create_or_update:termination_b_id", .vobj remote.id) ] }
      .ok ({ mi with
              deferred := mi.deferred ++ ["cable"]
              deferredAttributes := setDeferred mi.deferredAttributes "cable" [cable] },
           none)

/-! ### C6 — `NextPrefixExtension.attribute` and `_get_next`

A `Prefix` row is embedded as `PrefixRec`: the `network` / `prefix_length` /
`broadcast` columns targeted by the prefix part of the query, the remaining
field values for the generic criteria, and the result of
`get_available_prefixes().iter_cidrs()` in iteration order (`Cidr`s).
`netaddr.IPNetwork` parsing is abstracted as a `parse` parameter returning
the network, prefix length and broadcast (`IPNet`), or `none` for a
malformed string (netaddr raises `AddrFormatError`). -/

/-- One CIDR from `get_available_prefixes().iter_cidrs()`. -/
structure Cidr where
  network : String
  prefixlen : Nat

/-- A parsed `netaddr.IPNetwork`. -/
structure IPNet where
  network : String
  prefixlen : Nat
  broadcast : String

/-- A `Prefix` row in the database. -/
structure PrefixRec where
  network : String
  prefixlen : Nat
  broadcast : String
  attrs : List (String × PVal)
  available : List Cidr

/-- The generic part of `Q(**value)`: every remaining criterion equals the
row's field value. -/
def matchesAttrs (r : PrefixRec) (criteria : List (String × PVal)) : Bool :=
  criteria.all (fun kv =>
    ((r.attrs.find? (fun f => f.1 == kv.1)).map (fun f => f.2)) == some kv.2)

/-- The `reduce(operator.or_, prefix_q)` part: some requested parent matches
the row's `prefix_length`, `network` and `broadcast` columns. -/
def matchesPrefixQ (r : PrefixRec) (nets : List IPNet) : Bool :=
  nets.any (fun n =>
    r.prefixlen == n.prefixlen && r.network == n.network && r.broadcast == n.broadcast)

/-- The prefix-list handling of `NextPrefixExtension.attribute`: a string
becomes a one-element list; a non-list, non-string value raises
`DesignImplementationError`; each element is `strip()`ped (`AttributeError`
on a non-string element) and parsed (`AddrFormatError` on failure). -/
def parsePrefixList (parse : String → Option IPNet) (v : PVal) :
    Except PyErr (List IPNet) :=
  let eltsE : Except PyErr (List PVal) :=
    match v with
    | .vstr s => .ok [.vstr s]
    | .vlist xs => .ok xs
    | _ => .error (.designError .prefixesStringOrList)
  match eltsE with
  | .error e => .error e
  | .ok elts =>
    elts.mapM (fun x =>
      match x with
      | .vstr s =>
        match parse s.trim with
        | some n => .ok n
        | none => .error .addrFormatError
      | _ => .error .attributeError)

/-- Python `int(length)` on the values the design can supply. -/
def pyInt : PVal → Except PyErr Int
  | .vint n => .ok n
  | .vstr s =>
    match s.trim.toInt? with
    | some n => .ok n
    | none => .error .valueError
  | _ => .error .typeError

/-- The inner double loop of `NextPrefixExtension._get_next`: the first
available CIDR, in parent iteration order, whose prefix length is at most
the requested length. -/
def firstFit (recs : List PrefixRec) (len : Int) : Option Cidr :=
  match recs with
  | [] => none
  | r :: rest =>
    match r.available.find? (fun c => (c.prefixlen : Int) ≤ len) with
    | some c => some c
    | none => firstFit rest len

/-- `NextPrefixExtension._get_next(prefixes, length)`: convert `length` with
`int()`, then return `f"{available_prefix.network}/{length}"` for the first
fitting CIDR, raising `DesignImplementationError` when none fits. -/
def getNextStr (recs : List PrefixRec) (lengthVal : PVal) : Except PyErr String :=
  match pyInt lengthVal with
  | .error e => .error e
  | .ok len =>
    match firstFit recs len with
    | some c => .ok (c.network ++ "/" ++ toString len)
    | none => .error (.designError .noAvailable)

/-- `NextPrefixExtension.attribute(value, model_instance)` over the database
`db` of all `Prefix` rows (`Prefix.objects`). -/
def nextPrefixAttribute (db : List PrefixRec) (parse : String → Option IPNet)
    (value : PVal) : Except PyErr (String × String) :=
  match value with
  | .vdict entries0 =>
    let (lengthV, entries1) := popKey entries0 "length"
    match lengthV with
    | none | some .vnone => .error (.designError .lengthRequired)
    | some lengthVal =>
      if entries1.isEmpty then .error (.designError .noSearchCriteria)
      else
        match popKey entries1 "prefix" with
        | (none, _) =>
          match getNextStr (db.filter (fun r => matchesAttrs r entries1)) lengthVal with
          | .ok s => .ok ("prefix", s)
          | .error e => .error e
        | (some pv, entries2) =>
          match parsePrefixList parse pv with
          | .error e => .error e
          | .ok [] => .error .typeError
          | .ok nets =>
            match getNextStr
                (db.filter (fun r => matchesAttrs r entries2 && matchesPrefixQ r nets))
                lengthVal with
            | .ok s => .ok ("prefix", s)
            | .error e => .error e
  | _ => .error (.designError .nextPrefixDictRequired)

/-! ### C7 — `BGPPeeringExtension`

Only what the claim is about is embedded in full: the `_post_save`
lifecycle hook and its registration by `attribute`.  The endpoints of a
saved `Peering` row are embedded as mutable `PeerEndpoint` records (primary
key, `peer` foreign key, and a `saved` flag recording that `save()` was
called on them by the hook). -/

/-- A `PeerEndpoint` row as seen by the post-save hook. -/
structure PeerEndpoint where
  id : Nat
  peer : Option Nat
  saved : Bool

/-- The saved `Peering` reachable from the `ModelInstance` handed to the
post-save hook: its `endpoint_a` and `endpoint_z`. -/
structure PeeringInst where
  endpoint_a : PeerEndpoint
  endpoint_z : PeerEndpoint

/-- `BGPPeeringExtension._post_save(sender, instance, **kwargs)`:
`endpoint_a.peer, endpoint_z.peer = endpoint_z, endpoint_a` (the right-hand
side of the tuple assignment is evaluated before either store), then
`endpoint_a.save()` and `endpoint_z.save()`. -/
def bgpPostSave (p : PeeringInst) : PeeringInst :=
  let ea := p.endpoint_a
  let ez := p.endpoint_z
  let ea1 := { ea with peer := some ez.id }
  let ez1 := { ez with peer := some ea.id }
  { endpoint_a := { ea1 with saved := true },
    endpoint_z := { ez1 with saved := true } }

/-- A `PeerEndpoint` `ModelInstance` built by `BGPPeeringExtension.attribute`:
`ModelInstance(self.object_creator, self.PeerEndpoint, retval.pop(...))`,
whose `attributes["peering"]` is then set to the in-progress peering
`ModelInstance` (recorded by that instance's key). -/
structure BGPEndpointMI where
  modelClass : String
  attributes0 : PVal
  peeringRef : Nat

/-- The result of `BGPPeeringExtension.attribute`: the returned dictionary
(the remaining keys of `value`, plus `!update:pk` when the two endpoints
already share a peering; Python additionally stores the two endpoint
`ModelInstance`s under `retval["endpoints"]`, recorded here in the
`endpoints` field), and the `POST_SAVE` hook the call registers on the
in-progress `ModelInstance` via `model_instance.connect`. -/
structure BGPRet where
  retval : List (String × PVal)
  endpoints : List BGPEndpointMI
  postSaveHook : PeeringInst → PeeringInst

/-- `BGPPeeringExtension.attribute(value, model_instance)`.

`peering_a` and `peering_z` are the values of the two locals after the
`try` block that reads `endpoint_a.instance.peering` and
`endpoint_z.instance.peering` (both initialized to `None`, and left partly
or fully `None` when `Peering.DoesNotExist` is raised); the `delete()`
calls of the mismatch branch act on the database and are outside this
embedding. -/
def bgpPeeringAttribute (mi : MI) (peering_a peering_z : Option Nat)
    (value : PVal) : Except PyErr BGPRet :=
  match value with
  | .vdict entries =>
    match dictGet entries "endpoint_a", dictGet entries "endpoint_z" with
    | some aVal, some zVal =>
      let (_, rest1) := popKey entries "endpoint_a"
      let (_, rest2) := popKey rest1 "endpoint_z"
      let retval :=
        if peering_a == peering_z then
          match peering_a with
          | some pk => rest2 ++ [("!update:pk", .vobj pk)]
          | none => rest2
        else rest2
      .ok { retval := retval
            endpoints :=
              [ ⟨"PeerEndpoint", aVal, mi.id⟩, ⟨"PeerEndpoint", zVal, mi.id⟩ ]
            postSaveHook := bgpPostSave }
    | _, _ => .error (.designError .bgpEndpointsRequired)
  | _ => .error (.designError .bgpEndpointsRequired)

/-! ### C8 — `create_design_model` (post-save handler for `Job`)

`signals.create_design_model` fires on every `Job` save: when the job's
`job_class` is present and a subclass of `DesignJob`, it runs
`Design.objects.get_or_create(job=instance)`.  The `Design` table is
embedded as a list of rows holding the foreign key to the `Job`. -/

/-- The `job_class` property of a `Job` row: `None` when the class cannot
be loaded, otherwise a class that may or may not be a `DesignJob` subclass. -/
structure JobClassRef where
  isDesignJobSubclass : Bool

/-- A `Job` row. -/
structure JobRec where
  id : Nat
  job_class : Option JobClassRef

/-- A `Design` row: the foreign key to its `Job`. -/
structure DesignRec where
  job : Nat

/-- `signals.create_design_model(sender, instance, **kwargs)` acting on the
`Design` table. -/
def create_design_model (designs : List DesignRec) (inst : JobRec) :
    List DesignRec :=
  match inst.job_class with
  | some jc =>
    if jc.isDesignJobSubclass then
      if designs.any (fun d => d.job == inst.id) then designs
      else designs ++ [⟨inst.id⟩]
    else designs
  | none => designs

/-! ### C9 — `create_design_instance_statuses` (database-ready handler)

A `Status` row is embedded as name, color and the set of content types
(`content_types` many-to-many, a set: `add` is idempotent).  `Status.name`
carries a uniqueness constraint in the schema, so `get_or_create(name=...)`
matches at most one row; lookups below use the first (hence only) match.
The two choice sets iterated by the handler live in the plugin's `choices`
module, which is not part of the source tree given here; the handler is
therefore embedded over arbitrary `(value, name)` choice lists. -/

/-- `nautobot.utilities.choices.ColorChoices.COLOR_GREEN` (external value). -/
def COLOR_GREEN : String := "4caf50"

/-- `ColorChoices.COLOR_GREY` (external value). -/
def COLOR_GREY : String := "9e9e9e"

/-- `ColorChoices.COLOR_ORANGE` (external value). -/
def COLOR_ORANGE : String := "ff9800"

/-- `ColorChoices.COLOR_RED` (external value). -/
def COLOR_RED : String := "f44336"

/-- The content type of `DesignInstance`, by natural key. -/
def designInstanceContentType : String := "nautobot_design_builder.designinstance"

/-- A `Status` row. -/
structure StatusRec where
  name : String
  color : String
  content_types : List String

/-- The handler's `color_mapping` dictionary. -/
def color_mapping : List (String × String) :=
  [ ("Active", COLOR_GREEN),
    ("Decommissioned", COLOR_GREY),
    ("Disabled", COLOR_GREY),
    ("Deployed", COLOR_GREEN),
    ("Pending", COLOR_ORANGE),
    ("Rolled back", COLOR_RED) ]

/-- `color_mapping[status_name]` (`KeyError` when absent, handled by the
caller below). -/
def lookupColor (nm : String) : Option String :=
  (color_mapping.find? (fun kv => kv.1 == nm)).map (fun kv => kv.2)

/-- `status.content_types.add(ct)` on one `Status` row: a no-op when the
content type is already present (`content_types` is a set). -/
def withCT (s : StatusRec) (ct : String) : StatusRec :=
  { s with content_types :=
      if s.content_types.contains ct then s.content_types
      else s.content_types ++ [ct] }

/-- `status.content_types.add(content_type)` on the first (only) row named
`nm`. -/
def addContentType (db : List StatusRec) (nm ct : String) : List StatusRec :=
  match db with
  | [] => []
  | s :: rest =>
    if s.name == nm then withCT s ct :: rest
    else s :: addContentType rest nm ct

/-- One iteration of the handler's loop:
`status, _ = Status.objects.get_or_create(name=status_name,
defaults={"color": color_mapping[status_name]})` followed by
`status.content_types.add(content_type)`.  The `defaults` dictionary is
built before the call, so a name missing from `color_mapping` raises
`KeyError` even when the status already exists. -/
def statusStep (db : List StatusRec) (status_name : String) :
    Except PyErr (List StatusRec) :=
  match lookupColor status_name with
  | none => .error (.keyError status_name)
  | some color =>
    let db1 :=
      if db.any (fun s => s.name == status_name) then db
      else db ++ [⟨status_name, color, []⟩]
    .ok (addContentType db1 status_name designInstanceContentType)

/-- The first (hence, under the schema's uniqueness constraint, only)
`Status` row with a given name. -/
def firstNamed (db : List StatusRec) (nm : String) : Option StatusRec :=
  db.find? (fun s => s.name == nm)

/-- The handler's loop over a list of status names. -/
def foldStatuses (names : List String) (db : List StatusRec) :
    Except PyErr (List StatusRec) :=
  names.foldlM statusStep db

/-- `signals.create_design_instance_statuses(**kwargs)`: iterate
`chain(choices.DesignInstanceStatusChoices, choices.DesignInstanceLiveStateChoices)`
(each item a `(value, status_name)` pair) over the `Status` table. -/
def create_design_instance_statuses
    (statusChoices liveStateChoices : List (String × String))
    (db : List StatusRec) : Except PyErr (List StatusRec) :=
  (statusChoices ++ liveStateChoices).foldlM (fun acc c => statusStep acc c.2) db

/-! ### C2 — the Journal change-tracking model -/

namespace Journal

/-- Modelled from the spec: the `Journal` / `JournalEntry` / `Deployment`
ORM models and the `Builder` implementation routine are not part of the
source tree given here (only their tests, migrations and serializers are).
This section models, from the specification's words, a design deployment
run: the database maps object keys to object states; a design is the list
of objects the run creates or updates, in order, each given by its key and
desired state; the run's Journal records, per touched object, the object's
key and its prior state (`none` when the run created it, the spec's
"full control").  The state of one object row. -/
def ObjData : Type := List (String × PVal)

/-- The database: object key to current state (`none` = absent). -/
def DB : Type := Nat → Option ObjData

/-- One operation of a design: create or update the object `objId` to the
desired state. -/
structure DesignOp where
  objId : Nat
  desired : ObjData

/-- Modelled from the spec: a `JournalEntry`, the per-object record of a
deployment's Journal: the touched object's key and its state before the
run touched it (`none` when the run created it). -/
structure JournalEntry where
  objId : Nat
  pre : Option ObjData

/-- Point update of the database. -/
def setObj (db : DB) (i : Nat) (v : Option ObjData) : DB :=
  fun j => if j = i then v else db j

/-- Apply one design operation, journaling the touched object. -/
def applyOp (db : DB) (op : DesignOp) : DB × JournalEntry :=
  (setObj db op.objId (some op.desired), ⟨op.objId, db op.objId⟩)

/-- Modelled from the spec: a deployment run applies the design's
operations in order, collecting the Journal. -/
def applyDesign : DB → List DesignOp → DB × List JournalEntry
  | db, [] => (db, [])
  | db, op :: ops =>
    let r1 := applyOp db op
    let r2 := applyDesign r1.1 ops
    (r2.1, r1.2 :: r2.2)

/-- Modelled from the spec: decommissioning a deployment walks its Journal
backwards, restoring each touched object's prior state — deleting the
objects the run created and reverting the ones it modified. -/
def decommission (db : DB) (entries : List JournalEntry) : DB :=
  entries.reverse.foldl (fun d e => setObj d e.objId e.pre) db

/-- The last state a design writes to an object key, when it writes one. -/
def lastWrite (ops : List DesignOp) (i : Nat) : Option ObjData :=
  (ops.reverse.find? (fun op => op.objId == i)).map (fun op => op.desired)

end Journal

/-! ## Theorems -/

/-- The state an object key holds after a deployment run: the design's last
write to it, or its prior state when the design never touches it. -/
theorem applyDesign_char (ops : List Journal.DesignOp) :
    ∀ (db : Journal.DB) (i : Nat),
      (Journal.applyDesign db ops).1 i =
        (match Journal.lastWrite ops i with
          | some v => some v
          | none => db i) := by
  induction ops with
  | nil => intro db i; rfl
  | cons op ops ih =>
    intro db i
    have hrw : Journal.lastWrite (op :: ops) i =
        (match Journal.lastWrite ops i with
          | some v => some v
          | none => if op.objId == i then some op.desired else none) := by
      unfold Journal.lastWrite
      rw [List.reverse_cons, List.find?_append]
      rcases hf : ops.reverse.find? (fun o => o.objId == i) with _ | o <;>
        rw [hf] <;> cases hb : op.objId == i <;>
        simp [List.find?, hb, Option.or]
    have hstep : (Journal.applyDesign db (op :: ops)).1 i =
        (Journal.applyDesign (Journal.setObj db op.objId (some op.desired)) ops).1 i := rfl
    rw [hstep, ih, hrw]
    rcases hl : Journal.lastWrite ops i with _ | v
    · dsimp only
      cases hb : op.objId == i
      · have hne : ¬ i = op.objId := by
          intro h
          rw [h] at hb
          simp at hb
        simp [Journal.setObj, hne]
      · have heq : i = op.objId := by
          have h' : op.objId = i := by simpa using hb
          exact h'.symm
        simp [Journal.setObj, heq]
    · rfl

/-- Decommissioning restores every object the run touched (and leaves the
rest alone): walking the Journal backwards undoes the whole run. -/
theorem decommission_applyDesign (ops : List Journal.DesignOp) :
    ∀ (db : Journal.DB) (i : Nat),
      Journal.decommission (Journal.applyDesign db ops).1
        (Journal.applyDesign db ops).2 i = db i := by
  induction ops with
  | nil => intro db i; rfl
  | cons op ops ih =>
    intro db i
    have hpair : Journal.applyDesign db (op :: ops) =
        ((Journal.applyDesign (Journal.setObj db op.objId (some op.desired)) ops).1,
         ⟨op.objId, db op.objId⟩ ::
           (Journal.applyDesign (Journal.setObj db op.objId (some op.desired)) ops).2) := rfl
    rw [hpair]
    unfold Journal.decommission
    rw [List.reverse_cons, List.foldl_append]
    have ihx := ih (Journal.setObj db op.objId (some op.desired))
    unfold Journal.decommission at ihx
    dsimp only [List.foldl]
    by_cases hi : i = op.objId
    · simp [Journal.setObj, hi]
    · simp only [Journal.setObj, if_neg hi]
      rw [ihx i]
      simp [Journal.setObj, hi]

/-- Every change a run makes is covered by a Journal entry. -/
theorem journal_complete (ops : List Journal.DesignOp) :
    ∀ (db : Journal.DB) (i : Nat),
      (Journal.applyDesign db ops).1 i ≠ db i →
      ((Journal.applyDesign db ops).2.any (fun e => e.objId == i)) = true := by
  induction ops with
  | nil => intro db i h; exact absurd rfl h
  | cons op ops ih =>
    intro db i h
    have hpair : Journal.applyDesign db (op :: ops) =
        ((Journal.applyDesign (Journal.setObj db op.objId (some op.desired)) ops).1,
         ⟨op.objId, db op.objId⟩ ::
           (Journal.applyDesign (Journal.setObj db op.objId (some op.desired)) ops).2) := rfl
    rw [hpair] at h ⊢
    dsimp only [List.any] at h ⊢
    by_cases hi : op.objId = i
    · simp [hi]
    · have hdb1 : Journal.setObj db op.objId (some op.desired) i = db i := by
        have : ¬ i = op.objId := fun hx => hi hx.symm
        simp [Journal.setObj, this]
      have h2 : (Journal.applyDesign (Journal.setObj db op.objId (some op.desired)) ops).1 i ≠
          Journal.setObj db op.objId (some op.desired) i := by
        rw [hdb1]; exact h
      have := ih (Journal.setObj db op.objId (some op.desired)) i h2
      simp [this]

/-- C2: (spec-modelled) every object a deployment run creates or modifies
is recorded in the run's Journal, and the Journal suffices both to roll the
deployment back — decommissioning restores the pre-run database exactly —
and to make re-applying the same design idempotent. -/
theorem C2_journal_rollback_idempotent :
    (∀ (db : Journal.DB) (ops : List Journal.DesignOp) (i : Nat),
      (Journal.applyDesign db ops).1 i ≠ db i →
      ((Journal.applyDesign db ops).2.any (fun e => e.objId == i)) = true) ∧
    (∀ (db : Journal.DB) (ops : List Journal.DesignOp) (i : Nat),
      Journal.decommission (Journal.applyDesign db ops).1
        (Journal.applyDesign db ops).2 i = db i) ∧
    (∀ (db : Journal.DB) (ops : List Journal.DesignOp) (i : Nat),
      (Journal.applyDesign (Journal.applyDesign db ops).1 ops).1 i =
        (Journal.applyDesign db ops).1 i) := by
  refine ⟨fun db ops i => journal_complete ops db i,
          fun db ops i => decommission_applyDesign ops db i,
          fun db ops i => ?_⟩
  rw [applyDesign_char, applyDesign_char]
  rcases hl : Journal.lastWrite ops i with _ | v <;>
    simp [hl, applyDesign_char]

/-- Witness for C2 at a concrete run: one design operation creating object
1 over an empty database. -/
theorem C2_witness :
    ((Journal.applyDesign (fun _ => none)
        [⟨1, [("name", DesignBuilder.PVal.vstr "a")]⟩]).2.any
      (fun e => e.objId == 1)) = true :=
  C2_journal_rollback_idempotent.1 (fun _ => none)
    [⟨1, [("name", DesignBuilder.PVal.vstr "a")]⟩] 1 (fun h => nomatch h)


/-- C1: For each of the custom YAML tags `lookup`, `connect_cable`,
`next_prefix`, `child_prefix` and `bgp_peering`, exactly one `Extension`
subclass in the contrib extensions module has that tag as its
`attribute_tag` class attribute, so extension dispatch maps each of these
tags to exactly one resolution function. -/
theorem C1_contrib_tags_unique :
    tagCount "lookup" = 1 ∧ tagCount "connect_cable" = 1 ∧
    tagCount "next_prefix" = 1 ∧ tagCount "child_prefix" = 1 ∧
    tagCount "bgp_peering" = 1 := by
  decide

/-- C10: When `LookupMixin.lookup_by_content_type` is called with an
`app_label` / `model_name` pair matching no `ContentType`, the
`except ContentType.DoesNotExist` handler reads the local variable
`model_class` before any assignment to it has run, so the call raises
`UnboundLocalError` and never the `DesignImplementationError` describing
the missing model class. -/
theorem C10_lookup_by_content_type_unbound_local
    (reg : List CTEntry) (appLabel modelName : String)
    (query : List (String × PVal))
    (h : ctGetByNaturalKey reg appLabel modelName = none) :
    LookupMixin.lookup_by_content_type reg appLabel modelName query =
      .error .unboundLocal ∧
    ∀ e : DesignErr,
      LookupMixin.lookup_by_content_type reg appLabel modelName query ≠
        .error (.designError e) := by
  have hmain : LookupMixin.lookup_by_content_type reg appLabel modelName query =
      .error .unboundLocal := by
    unfold LookupMixin.lookup_by_content_type
    rw [h]
  exact ⟨hmain, fun e hc => by rw [hmain] at hc; simp at hc⟩

/-- Witness for C10 at a concrete input: an empty content-type registry. -/
theorem C10_witness :
    LookupMixin.lookup_by_content_type [] "dcim" "nosuchmodel" [] =
      .error .unboundLocal :=
  (C10_lookup_by_content_type_unbound_local [] "dcim" "nosuchmodel" [] rfl).1

/-- `LookupMixin.lookup` expressed by case analysis on the rows the
resolved query matches. -/
theorem lookup_eq_match (modelName : String) (objs : List Obj)
    (query : List (String × PVal)) :
    LookupMixin.lookup modelName objs query =
      (match lookupFilter objs query with
        | [] => .error (.designError (.noMatching modelName))
        | [o] => .ok o
        | _ :: _ :: _ => .error (.designError (.multipleMatch modelName))) := by
  rcases h : lookupFilter objs query with _ | ⟨a, _ | ⟨b, t⟩⟩ <;>
    simp only [LookupMixin.lookup, qsGet, lookupFilter, resolvedQuery] at h ⊢ <;>
    rw [h]

/-- C3: `LookupMixin.lookup` resolves to exactly one object — it returns
the unique matching row and raises `DesignImplementationError` both when no
row and when several rows match — and `LookupExtension.attribute` raises
`DesignImplementationError` when given no attribute argument, a string
value without a query attribute name, or a value that is neither a string
nor a dictionary. -/
theorem C3_lookup_unique_and_errors (modelName : String) (objs : List Obj)
    (query : List (String × PVal)) :
    (∀ o : Obj, lookupFilter objs query = [o] →
      LookupMixin.lookup modelName objs query = .ok o) ∧
    (lookupFilter objs query = [] →
      LookupMixin.lookup modelName objs query =
        .error (.designError (.noMatching modelName))) ∧
    (∀ (o o' : Obj) (rest : List Obj), lookupFilter objs query = o :: o' :: rest →
      LookupMixin.lookup modelName objs query =
        .error (.designError (.multipleMatch modelName))) ∧
    (∀ (reg : List CTEntry) (mi : LookupMI) (value : PVal),
      LookupExtension.attributeImpl reg mi [] value =
        .error (.designError .noAttributeGiven)) ∧
    (∀ (reg : List CTEntry) (mi : LookupMI) (attr s : String),
      LookupExtension.attributeImpl reg mi [attr] (.vstr s) =
        .error (.designError .noQueryAttribute)) ∧
    (∀ (reg : List CTEntry) (mi : LookupMI) (attr : String) (rest : List String)
        (value : PVal), value.isStr = false → value.isDict = false →
      LookupExtension.attributeImpl reg mi (attr :: rest) value =
        .error (.designError .lookupRequiresQuery)) := by
  refine ⟨?_, ?_, ?_, fun _ _ _ => rfl, fun _ _ _ _ => rfl, ?_⟩
  · intro o h
    rw [lookup_eq_match modelName objs query, h]
  · intro h
    rw [lookup_eq_match modelName objs query, h]
  · intro o o' rest h
    rw [lookup_eq_match modelName objs query, h]
  · intro reg mi attr rest value h1 h2
    cases value with
    | vstr s => simp [PVal.isStr] at h1
    | vdict d => simp [PVal.isDict] at h2
    | vnone => rfl
    | vint n => rfl
    | vlist xs => rfl
    | vobj i => rfl
    | vinst i => rfl

/-- Witness for C3 at concrete querysets: a unique match, no match,
multiple matches, and the three `attribute` error branches. -/
theorem C3_witness :
    LookupMixin.lookup "Interface" [⟨1, [("name", .vstr "x")]⟩]
        [("name", .vstr "x")] = .ok ⟨1, [("name", .vstr "x")]⟩ ∧
    LookupMixin.lookup "Interface" [] [("name", .vstr "x")] =
      .error (.designError (.noMatching "Interface")) ∧
    LookupMixin.lookup "Interface" [⟨1, []⟩, ⟨2, []⟩] [] =
      .error (.designError (.multipleMatch "Interface")) ∧
    LookupExtension.attributeImpl [] ⟨[]⟩ [] (.vstr "x") =
      .error (.designError .noAttributeGiven) ∧
    LookupExtension.attributeImpl [] ⟨[]⟩ ["termination_a"] (.vstr "x") =
      .error (.designError .noQueryAttribute) ∧
    LookupExtension.attributeImpl [] ⟨[]⟩ ["termination_a"] (.vint 3) =
      .error (.designError .lookupRequiresQuery) :=
  ⟨(C3_lookup_unique_and_errors "Interface" [⟨1, [("name", .vstr "x")]⟩]
      [("name", .vstr "x")]).1 ⟨1, [("name", .vstr "x")]⟩ rfl,
   (C3_lookup_unique_and_errors "Interface" [] [("name", .vstr "x")]).2.1 rfl,
   (C3_lookup_unique_and_errors "Interface" [⟨1, []⟩, ⟨2, []⟩] []).2.2.1
     ⟨1, []⟩ ⟨2, []⟩ [] rfl,
   (C3_lookup_unique_and_errors "X" [] []).2.2.2.1 [] ⟨[]⟩ (.vstr "x"),
   (C3_lookup_unique_and_errors "X" [] []).2.2.2.2.1 [] ⟨[]⟩ "termination_a" "x",
   (C3_lookup_unique_and_errors "X" [] []).2.2.2.2.2 [] ⟨[]⟩ "termination_a" []
     (.vint 3) rfl rfl⟩

/-- C4: On a resolvable status and a uniquely matching remote termination,
`CableConnectionExtension.attribute` returns `None` and defers the cable:
it appends `"cable"` to the instance's `deferred` list and stores under
`deferred_attributes["cable"]` a `ModelInstance` of the `Cable` model
class whose `termination_a` is the in-progress endpoint instance itself,
so the cable termination is created after its endpoint. -/
theorem C4_connect_cable_defers
    (statusObjs objs : List Obj) (value : List (String × PVal)) (mi : MI)
    (st : PVal) (query : List (String × PVal)) (remote : Obj)
    (hst : resolveCableStatus statusObjs value = .ok (some st, query))
    (hlk : LookupMixin.lookup mi.modelClass objs query = .ok remote) :
    cableConnectionAttribute statusObjs objs value mi =
      .ok ({ mi with
              deferred := mi.deferred ++ ["cable"]
              deferredAttributes := setDeferred mi.deferredAttributes "cable"
                [⟨"Cable",
                  [("status", st),
                   ("termination_a", .vinst mi.id),
                   ("!create_or_update:termination_b_type",
                     .vstr (contentTypeForModel mi.modelClass)),
                   ("!create_or_update:termination_b_id", .vobj remote.id)]⟩] },
           none) := by
  simp only [cableConnectionAttribute, hst, hlk]

/-- Witness for C4: a `status__name` lookup resolving to a concrete status
and a unique remote interface. -/
theorem C4_witness :
    cableConnectionAttribute [⟨5, [("name", .vstr "Planned")]⟩]
        [⟨7, [("name", .vstr "GigabitEthernet1")]⟩]
        [("status__name", .vstr "Planned"), ("name", .vstr "GigabitEthernet1")]
        ⟨3, "Interface", [], [], []⟩ =
      .ok (⟨3, "Interface", [], ["cable"],
            [("cable",
              [⟨"Cable",
                [("status", .vobj 5),
                 ("termination_a", .vinst 3),
                 ("!create_or_update:termination_b_type", .vstr "Interface"),
                 ("!create_or_update:termination_b_id", .vobj 7)]⟩])]⟩,
           none) :=
  C4_connect_cable_defers [⟨5, [("name", .vstr "Planned")]⟩]
    [⟨7, [("name", .vstr "GigabitEthernet1")]⟩]
    [("status__name", .vstr "Planned"), ("name", .vstr "GigabitEthernet1")]
    ⟨3, "Interface", [], [], []⟩ (.vobj 5) [("name", .vstr "GigabitEthernet1")]
    ⟨7, [("name", .vstr "GigabitEthernet1")]⟩ rfl rfl

/-- `d.pop(k, None)` pops exactly `d[k]`. -/
theorem popKey_fst (l : List (String × PVal)) (k : String) :
    (popKey l k).1 = dictGet l k := by
  induction l with
  | nil => rfl
  | cons kv rest ih =>
    by_cases h : kv.1 == k
    · simp [popKey, dictGet, List.find?, h]
    · simp only [popKey, dictGet, List.find?] at ih ⊢
      simp [h, ih]

/-- Scanning the keys after popping `k` equals scanning the original keys,
when the predicate rejects `k` itself. -/
theorem popKey_find?_snd (l : List (String × PVal)) (k : String)
    (f : String → Bool) (hf : f k = false) :
    (popKey l k).2.find? (fun kv => f kv.1) = l.find? (fun kv => f kv.1) := by
  induction l with
  | nil => rfl
  | cons kv rest ih =>
    by_cases h : kv.1 == k
    · have hk : kv.1 = k := by simpa using h
      simp [popKey, h, List.find?, hk, hf]
    · simp only [popKey, h, if_neg, Bool.false_eq_true, ite_false]
      cases hfk : f kv.1 <;> simp [List.find?, hfk, ih]

/-- The exceptions `queryset.get` can raise. -/
theorem qsGet_error (modelName : String) (objs : List Obj)
    (query : List (String × PVal)) (e : PyErr)
    (h : qsGet modelName objs query = .error e) :
    e = .doesNotExist modelName ∨ e = .multipleObjectsReturned modelName := by
  unfold qsGet at h
  rcases hfil : objs.filter (fun o => matchesQuery o query) with _ | ⟨a, _ | ⟨b, t⟩⟩ <;>
    rw [hfil] at h <;> simp_all

/-- The exceptions `LookupMixin.lookup` can raise. -/
theorem lookup_error (modelName : String) (objs : List Obj)
    (query : List (String × PVal)) (e : PyErr)
    (h : LookupMixin.lookup modelName objs query = .error e) :
    e = .designError (.noMatching modelName) ∨
      e = .designError (.multipleMatch modelName) := by
  rw [lookup_eq_match modelName objs query] at h
  rcases hfil : lookupFilter objs query with _ | ⟨a, _ | ⟨b, t⟩⟩ <;>
    rw [hfil] at h <;> simp_all

/-- The exceptions the status-resolution block can raise (only the Django
ORM exceptions of the status lookups, never a `DesignImplementationError`). -/
theorem resolveCableStatus_error (statusObjs : List Obj)
    (value : List (String × PVal)) (e : PyErr)
    (h : resolveCableStatus statusObjs value = .error e) :
    (∃ m, e = .doesNotExist m) ∨ (∃ m, e = .multipleObjectsReturned m) := by
  unfold resolveCableStatus at h
  rcases hp : popKey value "status" with ⟨sraw, query⟩
  rw [hp] at h
  dsimp only at h
  match sraw with
  | none | some .vnone =>
    rcases hf : query.find? (fun kv => strStartsWith kv.1 "status__") with _ | kv <;>
      rw [hf] at h <;> dsimp only at h
    · simp at h
    · rcases hq : qsGet "Status" statusObjs
          [(strDrop kv.1 8, kv.2)] with eq | st <;>
        rw [hq] at h
      · rcases qsGet_error _ _ _ _ hq with h1 | h1 <;> simp_all
        · exact Or.inl ⟨"Status", h.symm⟩
        · exact Or.inr ⟨"Status", h.symm⟩
      · simp at h
  | some (.vdict d) =>
    dsimp only at h
    rcases hq : qsGet "Status" statusObjs d with eq | st <;> rw [hq] at h
    · rcases qsGet_error _ _ _ _ hq with h1 | h1 <;> simp_all
      · exact Or.inl ⟨"Status", h.symm⟩
      · exact Or.inr ⟨"Status", h.symm⟩
    · simp at h
  | some (.vinst i) => simp at h
  | some (.vstr s) => simp at h
  | some (.vint n) => simp at h
  | some (.vlist xs) => simp at h
  | some (.vobj i) => simp at h

/-- When the status resolves to `None`, the popped value was absent or
`None` and no remaining key starts with `status__`. -/
theorem resolveCableStatus_none (statusObjs : List Obj)
    (value : List (String × PVal)) (q : List (String × PVal))
    (h : resolveCableStatus statusObjs value = .ok (none, q)) :
    value.find? (fun kv => strStartsWith kv.1 "status__") = none ∧
      (dictGet value "status" = none ∨ dictGet value "status" = some .vnone) := by
  unfold resolveCableStatus at h
  rcases hp : popKey value "status" with ⟨sraw, query⟩
  rw [hp] at h
  dsimp only at h
  have hps : dictGet value "status" = sraw := by
    rw [← popKey_fst, hp]
  have hqs : query.find? (fun kv => strStartsWith kv.1 "status__") =
      value.find? (fun kv => strStartsWith kv.1 "status__") := by
    have := popKey_find?_snd value "status"
      (fun s => strStartsWith s "status__") (by decide)
    rw [hp] at this
    exact this
  match sraw with
  | none | some .vnone =>
    rcases hf : query.find? (fun kv => strStartsWith kv.1 "status__") with _ | kv <;>
      rw [hf] at h <;> dsimp only at h
    · exact ⟨by rw [← hqs, hf], by rw [hps]; simp⟩
    · rcases hq : qsGet "Status" statusObjs
          [(strDrop kv.1 8, kv.2)] with eq | st <;>
        rw [hq] at h <;> simp at h
  | some (.vdict d) =>
    dsimp only at h
    rcases hq : qsGet "Status" statusObjs d with eq | st <;> rw [hq] at h <;>
      simp at h
  | some (.vinst i) => simp at h
  | some (.vstr s) => simp at h
  | some (.vint n) => simp at h
  | some (.vlist xs) => simp at h
  | some (.vobj i) => simp at h

/-- Conversely, an absent-or-`None` status with no `status__` key resolves
to `None`. -/
theorem resolveCableStatus_none_of (statusObjs : List Obj)
    (value : List (String × PVal))
    (hfind : value.find? (fun kv => strStartsWith kv.1 "status__") = none)
    (hstatus : dictGet value "status" = none ∨ dictGet value "status" = some .vnone) :
    resolveCableStatus statusObjs value = .ok (none, (popKey value "status").2) := by
  unfold resolveCableStatus
  rcases hp : popKey value "status" with ⟨sraw, query⟩
  have hps : dictGet value "status" = sraw := by
    rw [← popKey_fst, hp]
  have hqs : query.find? (fun kv => strStartsWith kv.1 "status__") = none := by
    have := popKey_find?_snd value "status"
      (fun s => strStartsWith s "status__") (by decide)
    rw [hp] at this
    rw [this, hfind]
  rw [hps] at hstatus
  rcases hstatus with h | h <;> subst h <;> simp [hqs]

/-- C5 counterexample: a value dictionary that does contain a `status` key
(mapped to `None`) but no `status__` key still raises the
"No status given for cable connection" error, so the claimed "if and only
if the dictionary contains neither a `status` key nor any key beginning
with `status__`" fails in the only-if direction. -/
theorem C5_counterexample :
    cableConnectionAttribute [] []
        [("status", .vnone), ("name", .vstr "x")] ⟨0, "Interface", [], [], []⟩ =
      .error (.designError .noStatusForCable) ∧
    dictGet [("status", .vnone), ("name", .vstr "x")] "status" = some .vnone :=
  ⟨rfl, rfl⟩

/-- C5 (amended): `CableConnectionExtension.attribute` raises
`DesignImplementationError` with message "No status given for cable
connection" if and only if the supplied value dictionary contains no key
beginning with `status__` and its `status` key is either absent or maps to
`None`. -/
theorem C5_no_status_error_iff (statusObjs objs : List Obj)
    (value : List (String × PVal)) (mi : MI) :
    cableConnectionAttribute statusObjs objs value mi =
        .error (.designError .noStatusForCable) ↔
      (value.find? (fun kv => strStartsWith kv.1 "status__") = none ∧
       (dictGet value "status" = none ∨ dictGet value "status" = some .vnone)) := by
  constructor
  · intro hc
    rcases hr : resolveCableStatus statusObjs value with e | ⟨st?, q⟩
    · rw [cableConnectionAttribute, hr] at hc
      simp only [Except.error.injEq] at hc
      rcases resolveCableStatus_error _ _ _ hr with ⟨m, hm⟩ | ⟨m, hm⟩ <;>
        simp [hm] at hc
    · match st? with
      | none => exact resolveCableStatus_none _ _ _ hr
      | some st =>
        rw [cableConnectionAttribute, hr] at hc
        dsimp only at hc
        rcases hl : LookupMixin.lookup mi.modelClass objs q with e' | remote <;>
          rw [hl] at hc
        · rcases lookup_error _ _ _ _ hl with hm | hm <;> simp [hm] at hc
        · simp at hc
  · rintro ⟨hfind, hstatus⟩
    have hr := resolveCableStatus_none_of statusObjs value hfind hstatus
    rw [cableConnectionAttribute, hr]

/-- When the popped `length` is present and not `None`,
`NextPrefixExtension.attribute` reduces to the criteria / prefix-handling
part of the function body. -/
theorem nextPrefix_reduction (db : List PrefixRec) (parse : String → Option IPNet)
    (entries : List (String × PVal)) (lengthVal : PVal)
    (entries1 : List (String × PVal))
    (h1 : popKey entries "length" = (some lengthVal, entries1))
    (hnn : lengthVal.isNone = false) :
    nextPrefixAttribute db parse (.vdict entries) =
      (if entries1.isEmpty then .error (.designError .noSearchCriteria)
       else
        match popKey entries1 "prefix" with
        | (none, _) =>
          match getNextStr (db.filter (fun r => matchesAttrs r entries1)) lengthVal with
          | .ok s => .ok ("prefix", s)
          | .error e => .error e
        | (some pv, entries2) =>
          match parsePrefixList parse pv with
          | .error e => .error e
          | .ok [] => .error .typeError
          | .ok nets =>
            match getNextStr
                (db.filter (fun r => matchesAttrs r entries2 && matchesPrefixQ r nets))
                lengthVal with
            | .ok s => .ok ("prefix", s)
            | .error e => .error e) := by
  unfold nextPrefixAttribute
  dsimp only
  rw [h1]
  cases lengthVal with
  | vnone => simp [PVal.isNone] at hnn
  | vstr s => rfl
  | vint n => rfl
  | vdict d => rfl
  | vlist l => rfl
  | vobj i => rfl
  | vinst i => rfl

/-- C6 counterexample: a dictionary value that has a `length` key, further
search criteria, and whose (only) parent prefix in the database has an
available sub-prefix of the requested size, but whose `prefix` key holds an
integer: none of the claim's four raise-conditions holds, yet the call
raises `DesignImplementationError` ("Prefixes should be a string (single
prefix) or a list.") instead of returning the next prefix. -/
theorem C6_counterexample :
    nextPrefixAttribute
        [⟨"10.0.0.0", 23, "10.0.1.255", [("status__name", .vstr "Active")],
          [⟨"10.0.0.0", 24⟩]⟩]
        (fun _ => none)
        (.vdict [("length", .vint 24), ("status__name", .vstr "Active"),
                 ("prefix", .vint 42)]) =
      .error (.designError .prefixesStringOrList) ∧
    (PVal.vdict [("length", .vint 24), ("status__name", .vstr "Active"),
                 ("prefix", .vint 42)]).isDict = true ∧
    dictGet [("length", .vint 24), ("status__name", .vstr "Active"),
             ("prefix", .vint 42)] "length" = some (.vint 24) ∧
    (popKey [("length", .vint 24), ("status__name", .vstr "Active"),
             ("prefix", .vint 42)] "length").2.isEmpty = false ∧
    firstFit
        [⟨"10.0.0.0", 23, "10.0.1.255", [("status__name", .vstr "Active")],
          [⟨"10.0.0.0", 24⟩]⟩] 24 = some ⟨"10.0.0.0", 24⟩ :=
  ⟨rfl, rfl, rfl, rfl, rfl⟩

/-- C6 (amended): `NextPrefixExtension.attribute` raises
`DesignImplementationError` when its value is not a dictionary, when the
`length` entry is absent or `None`, when no other search criteria remain
after removing `length`, when a supplied `prefix` entry is neither a string
nor a list, or when none of the matching parent prefixes contains an
available sub-prefix whose prefix length is at most the requested length
(an empty `prefix` list, a non-string prefix element, an unparseable prefix
string or a non-numeric length raise framework-level errors instead);
otherwise it returns the attribute name "prefix" together with
"<network>/<length>" built from the first available prefix, in
parent-prefix iteration order, whose prefix length is at most the requested
length. -/
theorem C6_next_prefix_amended (db : List PrefixRec)
    (parse : String → Option IPNet) :
    (∀ v : PVal, v.isDict = false →
      nextPrefixAttribute db parse v =
        .error (.designError .nextPrefixDictRequired)) ∧
    (∀ (entries entries1 : List (String × PVal)),
      popKey entries "length" = (none, entries1) →
      nextPrefixAttribute db parse (.vdict entries) =
        .error (.designError .lengthRequired)) ∧
    (∀ (entries entries1 : List (String × PVal)),
      popKey entries "length" = (some .vnone, entries1) →
      nextPrefixAttribute db parse (.vdict entries) =
        .error (.designError .lengthRequired)) ∧
    (∀ (entries : List (String × PVal)) (lengthVal : PVal),
      popKey entries "length" = (some lengthVal, []) →
      lengthVal.isNone = false →
      nextPrefixAttribute db parse (.vdict entries) =
        .error (.designError .noSearchCriteria)) ∧
    (∀ (entries entries1 entries2 : List (String × PVal)) (lengthVal pv : PVal),
      popKey entries "length" = (some lengthVal, entries1) →
      lengthVal.isNone = false → entries1.isEmpty = false →
      popKey entries1 "prefix" = (some pv, entries2) →
      pv.isStr = false → pv.isList = false →
      nextPrefixAttribute db parse (.vdict entries) =
        .error (.designError .prefixesStringOrList)) ∧
    (∀ (entries entries1 rest : List (String × PVal)) (lengthVal : PVal),
      popKey entries "length" = (some lengthVal, entries1) →
      lengthVal.isNone = false → entries1.isEmpty = false →
      popKey entries1 "prefix" = (none, rest) →
      nextPrefixAttribute db parse (.vdict entries) =
        (match getNextStr (db.filter (fun r => matchesAttrs r entries1)) lengthVal with
          | .ok s => .ok ("prefix", s)
          | .error e => .error e)) ∧
    (∀ (entries entries1 entries2 : List (String × PVal)) (lengthVal pv : PVal)
        (n : IPNet) (ns : List IPNet),
      popKey entries "length" = (some lengthVal, entries1) →
      lengthVal.isNone = false → entries1.isEmpty = false →
      popKey entries1 "prefix" = (some pv, entries2) →
      parsePrefixList parse pv = .ok (n :: ns) →
      nextPrefixAttribute db parse (.vdict entries) =
        (match getNextStr
            (db.filter (fun r => matchesAttrs r entries2 && matchesPrefixQ r (n :: ns)))
            lengthVal with
          | .ok s => .ok ("prefix", s)
          | .error e => .error e)) ∧
    (∀ (recs : List PrefixRec) (lengthVal : PVal) (len : Int),
      pyInt lengthVal = .ok len → firstFit recs len = none →
      getNextStr recs lengthVal = .error (.designError .noAvailable)) ∧
    (∀ (recs : List PrefixRec) (lengthVal : PVal) (len : Int) (c : Cidr),
      pyInt lengthVal = .ok len → firstFit recs len = some c →
      getNextStr recs lengthVal = .ok (c.network ++ "/" ++ toString len)) := by
  refine ⟨?_, ?_, ?_, ?_, ?_, ?_, ?_, ?_, ?_⟩
  · intro v hv
    cases v with
    | vdict d => simp [PVal.isDict] at hv
    | vnone => rfl
    | vstr s => rfl
    | vint n => rfl
    | vlist xs => rfl
    | vobj i => rfl
    | vinst i => rfl
  · intro entries entries1 h1
    unfold nextPrefixAttribute
    dsimp only
    rw [h1]
  · intro entries entries1 h1
    unfold nextPrefixAttribute
    dsimp only
    rw [h1]
  · intro entries lengthVal h1 hnn
    rw [nextPrefix_reduction db parse entries lengthVal [] h1 hnn]
    rfl
  · intro entries entries1 entries2 lengthVal pv h1 hnn hne h2 hs hl
    rw [nextPrefix_reduction db parse entries lengthVal entries1 h1 hnn]
    simp only [hne, Bool.false_eq_true, if_false]
    rw [h2]
    cases pv with
    | vstr s => simp [PVal.isStr] at hs
    | vlist xs => simp [PVal.isList] at hl
    | vnone => rfl
    | vint n => rfl
    | vdict d => rfl
    | vobj i => rfl
    | vinst i => rfl
  · intro entries entries1 rest lengthVal h1 hnn hne h2
    rw [nextPrefix_reduction db parse entries lengthVal entries1 h1 hnn]
    simp only [hne, Bool.false_eq_true, if_false]
    rw [h2]
  · intro entries entries1 entries2 lengthVal pv n ns h1 hnn hne h2 hparse
    rw [nextPrefix_reduction db parse entries lengthVal entries1 h1 hnn]
    simp only [hne, Bool.false_eq_true, if_false]
    rw [h2]
    dsimp only
    rw [hparse]
  · intro recs lengthVal len hpy hff
    unfold getNextStr
    rw [hpy]
    dsimp only
    rw [hff]
  · intro recs lengthVal len c hpy hff
    unfold getNextStr
    rw [hpy]
    dsimp only
    rw [hff]

/-- Witness for C6 (amended) at concrete inputs exercising every branch:
the non-dictionary, missing-length, `None`-length, no-criteria,
non-string-non-list prefix, criteria-only, explicit-prefix, exhausted and
first-fit cases. -/
theorem C6_witness :
    nextPrefixAttribute [] (fun _ => none) (.vstr "x") =
      .error (.designError .nextPrefixDictRequired) ∧
    nextPrefixAttribute [] (fun _ => none) (.vdict [("status", .vstr "a")]) =
      .error (.designError .lengthRequired) ∧
    nextPrefixAttribute [] (fun _ => none) (.vdict [("length", .vnone)]) =
      .error (.designError .lengthRequired) ∧
    nextPrefixAttribute [] (fun _ => none) (.vdict [("length", .vint 24)]) =
      .error (.designError .noSearchCriteria) ∧
    nextPrefixAttribute [] (fun _ => none)
        (.vdict [("length", .vint 24), ("prefix", .vint 42)]) =
      .error (.designError .prefixesStringOrList) ∧
    nextPrefixAttribute
        [⟨"10.0.0.0", 23, "10.0.1.255", [("status", .vstr "Active")],
          [⟨"10.0.0.0", 24⟩]⟩]
        (fun _ => none)
        (.vdict [("length", .vint 24), ("status", .vstr "Active")]) =
      .ok ("prefix", "10.0.0.0/24") ∧
    nextPrefixAttribute
        [⟨"10.0.0.0", 23, "10.0.1.255", [("status", .vstr "Active")],
          [⟨"10.0.0.0", 24⟩]⟩]
        (fun _ => some ⟨"10.0.0.0", 23, "10.0.1.255"⟩)
        (.vdict [("length", .vint 24), ("status", .vstr "Active"),
                 ("prefix", .vstr "10.0.0.0/23")]) =
      .ok ("prefix", "10.0.0.0/24") ∧
    getNextStr [] (.vint 24) = .error (.designError .noAvailable) ∧
    getNextStr
        [⟨"10.0.0.0", 23, "10.0.1.255", [], [⟨"10.0.0.0", 24⟩]⟩]
        (.vint 24) = .ok ("10.0.0.0/24") := by
  refine ⟨?_, ?_, ?_, ?_, ?_, ?_, ?_, ?_, ?_⟩
  · exact (C6_next_prefix_amended [] (fun _ => none)).1 (.vstr "x") rfl
  · exact (C6_next_prefix_amended [] (fun _ => none)).2.1
      [("status", .vstr "a")] [("status", .vstr "a")] rfl
  · exact (C6_next_prefix_amended [] (fun _ => none)).2.2.1
      [("length", .vnone)] [] rfl
  · exact (C6_next_prefix_amended [] (fun _ => none)).2.2.2.1
      [("length", .vint 24)] (.vint 24) rfl rfl
  · exact (C6_next_prefix_amended [] (fun _ => none)).2.2.2.2.1
      [("length", .vint 24), ("prefix", .vint 42)] [("prefix", .vint 42)] []
      (.vint 24) (.vint 42) rfl rfl rfl rfl rfl rfl
  · exact ((C6_next_prefix_amended
        [⟨"10.0.0.0", 23, "10.0.1.255", [("status", .vstr "Active")],
          [⟨"10.0.0.0", 24⟩]⟩] (fun _ => none)).2.2.2.2.2.1
      [("length", .vint 24), ("status", .vstr "Active")]
      [("status", .vstr "Active")] [("status", .vstr "Active")]
      (.vint 24) rfl rfl rfl rfl).trans rfl
  · exact ((C6_next_prefix_amended
        [⟨"10.0.0.0", 23, "10.0.1.255", [("status", .vstr "Active")],
          [⟨"10.0.0.0", 24⟩]⟩]
        (fun _ => some ⟨"10.0.0.0", 23, "10.0.1.255"⟩)).2.2.2.2.2.2.1
      [("length", .vint 24), ("status", .vstr "Active"),
       ("prefix", .vstr "10.0.0.0/23")]
      [("status", .vstr "Active"), ("prefix", .vstr "10.0.0.0/23")]
      [("status", .vstr "Active")]
      (.vint 24) (.vstr "10.0.0.0/23") ⟨"10.0.0.0", 23, "10.0.1.255"⟩ []
      rfl rfl rfl rfl rfl).trans rfl
  · exact (C6_next_prefix_amended [] (fun _ => none)).2.2.2.2.2.2.2.1
      [] (.vint 24) 24 rfl rfl
  · exact ((C6_next_prefix_amended [] (fun _ => none)).2.2.2.2.2.2.2.2
      [⟨"10.0.0.0", 23, "10.0.1.255", [], [⟨"10.0.0.0", 24⟩]⟩]
      (.vint 24) 24 ⟨"10.0.0.0", 24⟩ rfl rfl).trans rfl

/-- C7: The `POST_SAVE` hook registered by `BGPPeeringExtension.attribute`
is `_post_save`, and `_post_save` wires a saved peering symmetrically:
`endpoint_a.peer` is set to `endpoint_z`, `endpoint_z.peer` to
`endpoint_a`, and both endpoints are saved. -/
theorem C7_bgp_post_save_symmetric
    (p : PeeringInst) (mi : MI) (peering_a peering_z : Option Nat)
    (entries : List (String × PVal)) (aVal zVal : PVal)
    (ha : dictGet entries "endpoint_a" = some aVal)
    (hz : dictGet entries "endpoint_z" = some zVal) :
    (bgpPostSave p).endpoint_a.peer = some p.endpoint_z.id ∧
    (bgpPostSave p).endpoint_z.peer = some p.endpoint_a.id ∧
    (bgpPostSave p).endpoint_a.saved = true ∧
    (bgpPostSave p).endpoint_z.saved = true ∧
    (bgpPeeringAttribute mi peering_a peering_z (.vdict entries)).map
        BGPRet.postSaveHook = .ok bgpPostSave := by
  refine ⟨rfl, rfl, rfl, rfl, ?_⟩
  simp only [bgpPeeringAttribute, ha, hz]
  cases peering_a == peering_z <;> cases peering_a <;> rfl

/-- Witness for C7 at a concrete saved peering and attribute call. -/
theorem C7_witness :
    (bgpPostSave ⟨⟨1, none, false⟩, ⟨2, none, false⟩⟩).endpoint_a.peer = some 2 ∧
    (bgpPostSave ⟨⟨1, none, false⟩, ⟨2, none, false⟩⟩).endpoint_z.peer = some 1 ∧
    (bgpPostSave ⟨⟨1, none, false⟩, ⟨2, none, false⟩⟩).endpoint_a.saved = true ∧
    (bgpPostSave ⟨⟨1, none, false⟩, ⟨2, none, false⟩⟩).endpoint_z.saved = true ∧
    (bgpPeeringAttribute ⟨0, "Peering", [], [], []⟩ none none
        (.vdict [("endpoint_a", .vdict []), ("endpoint_z", .vdict []),
                 ("status__name", .vstr "Active")])).map
        BGPRet.postSaveHook = .ok bgpPostSave :=
  C7_bgp_post_save_symmetric ⟨⟨1, none, false⟩, ⟨2, none, false⟩⟩
    ⟨0, "Peering", [], [], []⟩ none none
    [("endpoint_a", .vdict []), ("endpoint_z", .vdict []),
     ("status__name", .vstr "Active")] (.vdict []) (.vdict []) rfl rfl

/-- C8: The `post_save` handler `create_design_model` ensures a `Design`
row exists for every saved `Job` whose `job_class` is a `DesignJob`
subclass, creating one only when none exists yet; for a `Job` with a
missing or non-`DesignJob` `job_class` it changes nothing, and saving the
same `DesignJob`-backed `Job` again never creates a second `Design`. -/
theorem C8_create_design_model_spec :
    (∀ (designs : List DesignRec) (inst : JobRec) (jc : JobClassRef),
      inst.job_class = some jc → jc.isDesignJobSubclass = true →
      (create_design_model designs inst).any (fun d => d.job == inst.id) = true) ∧
    (∀ (designs : List DesignRec) (inst : JobRec),
      inst.job_class = none → create_design_model designs inst = designs) ∧
    (∀ (designs : List DesignRec) (inst : JobRec) (jc : JobClassRef),
      inst.job_class = some jc → jc.isDesignJobSubclass = false →
      create_design_model designs inst = designs) ∧
    (∀ (designs : List DesignRec) (inst : JobRec),
      designs.any (fun d => d.job == inst.id) = true →
      create_design_model designs inst = designs) ∧
    (∀ (designs : List DesignRec) (inst : JobRec),
      create_design_model (create_design_model designs inst) inst =
        create_design_model designs inst) := by
  have hexists : ∀ (designs : List DesignRec) (inst : JobRec) (jc : JobClassRef),
      inst.job_class = some jc → jc.isDesignJobSubclass = true →
      (create_design_model designs inst).any (fun d => d.job == inst.id) = true := by
    intro designs inst jc h1 h2
    simp only [create_design_model, h1, h2, if_true]
    cases hA : designs.any (fun d => d.job == inst.id) with
    | true => simp [hA]
    | false => simp [hA]
  have hfound : ∀ (designs : List DesignRec) (inst : JobRec),
      designs.any (fun d => d.job == inst.id) = true →
      create_design_model designs inst = designs := by
    intro designs inst hA
    simp only [create_design_model]
    cases h1 : inst.job_class with
    | none => rfl
    | some jc =>
      cases h2 : jc.isDesignJobSubclass <;> simp [hA]
  refine ⟨hexists, ?_, ?_, hfound, ?_⟩
  · intro designs inst h1
    simp [create_design_model, h1]
  · intro designs inst jc h1 h2
    simp [create_design_model, h1, h2]
  · intro designs inst
    cases h1 : inst.job_class with
    | none => simp [create_design_model, h1]
    | some jc =>
      cases h2 : jc.isDesignJobSubclass with
      | false => simp [create_design_model, h1, h2]
      | true => exact hfound _ inst (hexists designs inst jc h1 h2)

/-- Witness for C8 at concrete inputs: a design job, a non-design job and a
job without a loadable class. -/
theorem C8_witness :
    (create_design_model [] ⟨7, some ⟨true⟩⟩).any (fun d => d.job == 7) = true ∧
    create_design_model [⟨3⟩] ⟨7, none⟩ = [⟨3⟩] ∧
    create_design_model [⟨3⟩] ⟨7, some ⟨false⟩⟩ = [⟨3⟩] ∧
    create_design_model [⟨7⟩] ⟨7, some ⟨true⟩⟩ = [⟨7⟩] ∧
    create_design_model (create_design_model [] ⟨7, some ⟨true⟩⟩) ⟨7, some ⟨true⟩⟩ =
      create_design_model [] ⟨7, some ⟨true⟩⟩ :=
  ⟨C8_create_design_model_spec.1 [] ⟨7, some ⟨true⟩⟩ ⟨true⟩ rfl rfl,
   C8_create_design_model_spec.2.1 [⟨3⟩] ⟨7, none⟩ rfl,
   C8_create_design_model_spec.2.2.1 [⟨3⟩] ⟨7, some ⟨false⟩⟩ ⟨false⟩ rfl rfl,
   C8_create_design_model_spec.2.2.2.1 [⟨7⟩] ⟨7, some ⟨true⟩⟩ (by decide),
   C8_create_design_model_spec.2.2.2.2 [] ⟨7, some ⟨true⟩⟩⟩

/-- `Status.objects.filter(name=nm).exists()` agrees with `firstNamed`. -/
theorem any_name_eq_isSome (db : List StatusRec) (n : String) :
    db.any (fun s => s.name == n) = (firstNamed db n).isSome := by
  induction db with
  | nil => rfl
  | cons s rest ih =>
    cases hb : s.name == n <;> simp [firstNamed, List.find?, List.any, hb] <;>
      simpa [firstNamed] using ih

/-- `content_types.add` guarantees membership. -/
theorem withCT_contains (s : StatusRec) (ct : String) :
    (withCT s ct).content_types.contains ct = true := by
  unfold withCT
  cases hc : s.content_types.contains ct
  · simp
  · simpa using hc

/-- `content_types.add` keeps existing members. -/
theorem withCT_contains_mono (s : StatusRec) (ct c : String)
    (h : s.content_types.contains c = true) :
    (withCT s ct).content_types.contains c = true := by
  unfold withCT
  cases hc : s.content_types.contains ct <;> simp_all

/-- `add` on the first row named `n` updates exactly that row. -/
theorem firstNamed_addCT_self (db : List StatusRec) (n ct : String)
    (s : StatusRec) (h : firstNamed db n = some s) :
    firstNamed (addContentType db n ct) n = some (withCT s ct) := by
  induction db with
  | nil => simp [firstNamed, List.find?] at h
  | cons s0 rest ih =>
    cases hb : s0.name == n with
    | true =>
      have hs : s0 = s := by
        simp [firstNamed, List.find?, hb] at h
        exact h
      subst hs
      have hname : ((withCT s0 ct).name == n) = true := hb
      simp [addContentType, hb, firstNamed, List.find?, hname]
    | false =>
      have h' : firstNamed rest n = some s := by
        simpa [firstNamed, List.find?, hb] using h
      have hrec := ih h'
      unfold firstNamed at hrec ⊢
      simp [addContentType, hb, List.find?, hrec]

/-- `add` on the first row named `m` leaves lookups of other names alone. -/
theorem firstNamed_addCT_other (db : List StatusRec) (m ct n : String)
    (hnm : n ≠ m) :
    firstNamed (addContentType db m ct) n = firstNamed db n := by
  induction db with
  | nil => rfl
  | cons s0 rest ih =>
    cases hb : s0.name == m with
    | true =>
      have hs0 : s0.name = m := by simpa using hb
      have hbn : (s0.name == n) = false := by
        rw [hs0]
        exact beq_eq_false_iff_ne.mpr (fun hx => hnm hx.symm)
      have hbn' : ((withCT s0 ct).name == n) = false := hbn
      simp [addContentType, hb, firstNamed, List.find?, hbn, hbn']
    | false =>
      cases hb2 : s0.name == n <;>
        simp [addContentType, hb, firstNamed, List.find?, hb2] <;>
        simpa [firstNamed] using ih

/-- `add` is a no-op when the first row named `n` already has the content
type. -/
theorem addCT_fixpoint (db : List StatusRec) (n ct : String) (s : StatusRec)
    (h : firstNamed db n = some s) (hc : s.content_types.contains ct = true) :
    addContentType db n ct = db := by
  induction db with
  | nil => rfl
  | cons s0 rest ih =>
    cases hb : s0.name == n with
    | true =>
      have hs : s0 = s := by
        simp [firstNamed, List.find?, hb] at h
        exact h
      subst hs
      have hfix : withCT s0 ct = s0 := by
        unfold withCT
        rw [hc]
        rfl
      simp [addContentType, hb, hfix]
    | false =>
      have h' : firstNamed rest n = some s := by
        simpa [firstNamed, List.find?, hb] using h
      simp [addContentType, hb, ih h']

/-- One loop iteration establishes the status for its name: afterwards a
row with that name exists, carries the `DesignInstance` content type, was
created with the mapped color when absent, and keeps its name and color
when present. -/
theorem statusStep_establishes (db : List StatusRec) (n : String)
    (col : String) (hcol : lookupColor n = some col)
    (db' : List StatusRec) (h : statusStep db n = .ok db') :
    ∃ s', firstNamed db' n = some s' ∧
      s'.content_types.contains designInstanceContentType = true ∧
      (firstNamed db n = none → s'.color = col) ∧
      (∀ s, firstNamed db n = some s → s'.name = s.name ∧ s'.color = s.color) := by
  unfold statusStep at h
  rw [hcol] at h
  try dsimp only at h
  rcases hfn : firstNamed db n with _ | s
  · have hany : db.any (fun s => s.name == n) = false := by
      rw [any_name_eq_isSome, hfn]; rfl
    rw [hany] at h
    simp only [Bool.false_eq_true, if_false, Except.ok.injEq] at h
    subst h
    have hnew : firstNamed (db ++ [⟨n, col, []⟩]) n = some ⟨n, col, []⟩ := by
      unfold firstNamed
      rw [List.find?_append]
      unfold firstNamed at hfn
      rw [hfn]
      simp [List.find?]
    exact ⟨withCT ⟨n, col, []⟩ designInstanceContentType,
      firstNamed_addCT_self _ n designInstanceContentType _ hnew,
      withCT_contains _ _, fun _ => rfl,
      fun s hs => nomatch hs⟩
  · have hany : db.any (fun s => s.name == n) = true := by
      rw [any_name_eq_isSome, hfn]; rfl
    rw [hany] at h
    simp only [if_true, Except.ok.injEq] at h
    subst h
    refine ⟨withCT s designInstanceContentType,
      firstNamed_addCT_self db n designInstanceContentType s hfn,
      withCT_contains _ _, ?_, ?_⟩
    · intro hc0
      exact nomatch hc0
    · intro s0 hs0
      cases Option.some.inj hs0
      exact ⟨rfl, rfl⟩

/-- One loop iteration never removes a status, never renames or recolors
one, and never sheds a content type. -/
theorem statusStep_preserves (db : List StatusRec) (m : String)
    (db' : List StatusRec) (h : statusStep db m = .ok db')
    (n : String) (s : StatusRec) (hfn : firstNamed db n = some s) :
    ∃ s', firstNamed db' n = some s' ∧ s'.name = s.name ∧ s'.color = s.color ∧
      (∀ c, s.content_types.contains c = true →
        s'.content_types.contains c = true) := by
  unfold statusStep at h
  rcases hcol : lookupColor m with _ | col
  · rw [hcol] at h; cases h
  · rw [hcol] at h
    try dsimp only at h
    simp only [Except.ok.injEq] at h
    have hfn1 : firstNamed (if db.any (fun s => s.name == m) then db
        else db ++ [⟨m, col, []⟩]) n = some s := by
      cases hany : db.any (fun s => s.name == m)
      · simp only [hany, Bool.false_eq_true, if_false]
        unfold firstNamed at hfn ⊢
        rw [List.find?_append, hfn]
        rfl
      · simp only [hany, if_true]
        exact hfn
    by_cases hnm : n = m
    · subst hnm
      refine ⟨withCT s designInstanceContentType, ?_, rfl, rfl,
        fun c hc => withCT_contains_mono s designInstanceContentType c hc⟩
      rw [← h]
      exact firstNamed_addCT_self _ n designInstanceContentType s hfn1
    · refine ⟨s, ?_, rfl, rfl, fun c hc => hc⟩
      rw [← h]
      rw [firstNamed_addCT_other _ m designInstanceContentType n hnm]
      exact hfn1

/-- One loop iteration leaves a new status absent when it processes a
different name. -/
theorem statusStep_keeps_absent (db : List StatusRec) (m : String)
    (db' : List StatusRec) (h : statusStep db m = .ok db')
    (n : String) (hnm : n ≠ m) (hfn : firstNamed db n = none) :
    firstNamed db' n = none := by
  unfold statusStep at h
  rcases hcol : lookupColor m with _ | col
  · rw [hcol] at h; cases h
  · rw [hcol] at h
    try dsimp only at h
    simp only [Except.ok.injEq] at h
    rw [← h, firstNamed_addCT_other _ m designInstanceContentType n hnm]
    cases hany : db.any (fun s => s.name == m)
    · simp only [hany, Bool.false_eq_true, if_false]
      unfold firstNamed at hfn ⊢
      rw [List.find?_append, hfn]
      have : (StatusRec.name ⟨m, col, []⟩ == n) = false :=
        beq_eq_false_iff_ne.mpr (fun hx => hnm hx.symm)
      simp [List.find?, this]
    · simp only [hany, if_true]
      exact hfn

/-- One loop iteration is the identity once its status exists and already
carries the content type. -/
theorem statusStep_fixpoint (db : List StatusRec) (n : String) (col : String)
    (hcol : lookupColor n = some col) (s : StatusRec)
    (hfn : firstNamed db n = some s)
    (hc : s.content_types.contains designInstanceContentType = true) :
    statusStep db n = .ok db := by
  unfold statusStep
  rw [hcol]
  try dsimp only
  have hany : db.any (fun s => s.name == n) = true := by
    rw [any_name_eq_isSome, hfn]; rfl
  rw [hany]
  rw [if_pos rfl]
  rw [addCT_fixpoint db n designInstanceContentType s hfn hc]

/-- `statusStep` as an equation when the color mapping has the name. -/
theorem statusStep_eq (db : List StatusRec) (n col : String)
    (hcol : lookupColor n = some col) :
    statusStep db n = .ok (addContentType
      (if db.any (fun s => s.name == n) then db else db ++ [⟨n, col, []⟩])
      n designInstanceContentType) := by
  unfold statusStep
  rw [hcol]

/-- Running the handler's loop over a list of names whose colors are all
mapped succeeds, establishes every name, preserves existing rows and leaves
unrelated absent names absent. -/
theorem foldStatuses_ok (names : List String) : ∀ (db : List StatusRec),
    (∀ n ∈ names, (lookupColor n).isSome = true) →
    ∃ db1, foldStatuses names db = .ok db1 ∧
      (∀ n ∈ names, ∃ s, firstNamed db1 n = some s ∧
        s.content_types.contains designInstanceContentType = true ∧
        (firstNamed db n = none → lookupColor n = some s.color)) ∧
      (∀ n s, firstNamed db n = some s → ∃ s', firstNamed db1 n = some s' ∧
        s'.name = s.name ∧ s'.color = s.color ∧
        (∀ c, s.content_types.contains c = true →
          s'.content_types.contains c = true)) := by
  induction names with
  | nil =>
    intro db _
    exact ⟨db, rfl, fun n hn => absurd hn (List.not_mem_nil n),
      fun n s hs => ⟨s, hs, rfl, rfl, fun c hc => hc⟩⟩
  | cons n rest ih =>
    intro db hcolors
    have hcn : (lookupColor n).isSome = true := hcolors n (List.mem_cons_self n rest)
    rcases hcol : lookupColor n with _ | col
    · rw [hcol] at hcn; cases hcn
    · have hstep := statusStep_eq db n col hcol
      set db2 := addContentType
        (if db.any (fun s => s.name == n) then db else db ++ [⟨n, col, []⟩])
        n designInstanceContentType with hdb2
      obtain ⟨db1, hfold, hest, hpres⟩ :=
        ih db2 (fun m hm => hcolors m (List.mem_cons_of_mem n hm))
      obtain ⟨sn, hsn, hsnct, hsncol, hsnpres⟩ :=
        statusStep_establishes db n col hcol db2 hstep
      refine ⟨db1, ?_, ?_, ?_⟩
      · show (n :: rest).foldlM statusStep db = .ok db1
        rw [show (n :: rest).foldlM statusStep db =
          statusStep db n >>= (fun d => rest.foldlM statusStep d) from rfl]
        rw [hstep]
        exact hfold
      · intro m hm
        rcases List.mem_cons.mp hm with hmn | hmr
        · subst hmn
          obtain ⟨s1, hs1, hs1name, hs1col, hs1ct⟩ := hpres m sn hsn
          exact ⟨s1, hs1, hs1ct designInstanceContentType hsnct,
            fun habs => by rw [hcol, hs1col, hsncol habs]⟩
        · by_cases hmn : m = n
          · subst hmn
            obtain ⟨s1, hs1, hs1name, hs1col, hs1ct⟩ := hpres m sn hsn
            exact ⟨s1, hs1, hs1ct designInstanceContentType hsnct,
              fun habs => by rw [hcol, hs1col, hsncol habs]⟩
          · obtain ⟨s1, hs1, hs1ct, hs1col⟩ := hest m hmr
            exact ⟨s1, hs1, hs1ct, fun habs => hs1col
              (statusStep_keeps_absent db n db2 hstep m hmn habs)⟩
      · intro m s0 hm0
        obtain ⟨s2, hs2, hs2name, hs2col, hs2ct⟩ :=
          statusStep_preserves db n db2 hstep m s0 hm0
        obtain ⟨s1, hs1, hs1name, hs1col, hs1ct⟩ := hpres m s2 hs2
        exact ⟨s1, hs1, hs1name.trans hs2name, hs1col.trans hs2col,
          fun c hc => hs1ct c (hs2ct c hc)⟩

/-- A second run of the loop is the identity: every name already has its
status with the content type attached. -/
theorem foldStatuses_fixpoint (names : List String) : ∀ (db : List StatusRec),
    (∀ n ∈ names, (lookupColor n).isSome = true) →
    (∀ n ∈ names, ∃ s, firstNamed db n = some s ∧
      s.content_types.contains designInstanceContentType = true) →
    foldStatuses names db = .ok db := by
  induction names with
  | nil => intro db _ _; rfl
  | cons n rest ih =>
    intro db hcolors hdone
    have hcn : (lookupColor n).isSome = true := hcolors n (List.mem_cons_self n rest)
    rcases hcol : lookupColor n with _ | col
    · rw [hcol] at hcn; cases hcn
    · obtain ⟨s, hs, hsct⟩ := hdone n (List.mem_cons_self n rest)
      have hfix := statusStep_fixpoint db n col hcol s hs hsct
      show (n :: rest).foldlM statusStep db = .ok db
      rw [show (n :: rest).foldlM statusStep db =
        statusStep db n >>= (fun d => rest.foldlM statusStep d) from rfl]
      rw [hfix]
      exact ih db (fun m hm => hcolors m (List.mem_cons_of_mem n hm))
        (fun m hm => hdone m (List.mem_cons_of_mem n hm))

/-- The handler equals the loop over the chained status names. -/
theorem create_statuses_eq_fold (sc lsc : List (String × String))
    (db : List StatusRec) :
    create_design_instance_statuses sc lsc db =
      foldStatuses ((sc ++ lsc).map (fun c => c.2)) db := by
  unfold create_design_instance_statuses foldStatuses
  rw [List.foldlM_map]

/-- C9: After the database-ready handler runs, every status name of the two
choice sets has a `Status` row whose `content_types` include the
`DesignInstance` content type, created with the handler's mapped color when
absent; and running the handler a second time is the identity on the
`Status` table, so it creates no additional `Status` objects. -/
theorem C9_statuses_bootstrapped (sc lsc : List (String × String))
    (db : List StatusRec)
    (hcolors : ∀ c ∈ sc ++ lsc, (lookupColor c.2).isSome = true) :
    ∃ db1, create_design_instance_statuses sc lsc db = .ok db1 ∧
      (∀ c ∈ sc ++ lsc, ∃ s, firstNamed db1 c.2 = some s ∧
        s.content_types.contains designInstanceContentType = true ∧
        (firstNamed db c.2 = none → lookupColor c.2 = some s.color)) ∧
      create_design_instance_statuses sc lsc db1 = .ok db1 := by
  have hcolors' : ∀ n ∈ (sc ++ lsc).map (fun c => c.2),
      (lookupColor n).isSome = true := by
    intro n hn
    obtain ⟨c, hc, rfl⟩ := List.mem_map.mp hn
    exact hcolors c hc
  obtain ⟨db1, hfold, hest, _⟩ :=
    foldStatuses_ok ((sc ++ lsc).map (fun c => c.2)) db hcolors'
  refine ⟨db1, ?_, ?_, ?_⟩
  · rw [create_statuses_eq_fold]
    exact hfold
  · intro c hc
    exact hest c.2 (List.mem_map_of_mem (fun c => c.2) hc)
  · rw [create_statuses_eq_fold]
    exact foldStatuses_fixpoint ((sc ++ lsc).map (fun c => c.2)) db1 hcolors'
      (fun n hn => by
        obtain ⟨s, hs, hsct, _⟩ := hest n hn
        exact ⟨s, hs, hsct⟩)

/-- Witness for C9: the six status names of the plugin's choice sets over
an empty `Status` table, run twice. -/
theorem C9_witness :
    create_design_instance_statuses
        [("active", "Active"), ("decommissioned", "Decommissioned"),
         ("disabled", "Disabled")]
        [("deployed", "Deployed"), ("pending", "Pending"),
         ("rolled-back", "Rolled back")] [] =
      .ok [⟨"Active", COLOR_GREEN, [designInstanceContentType]⟩,
           ⟨"Decommissioned", COLOR_GREY, [designInstanceContentType]⟩,
           ⟨"Disabled", COLOR_GREY, [designInstanceContentType]⟩,
           ⟨"Deployed", COLOR_GREEN, [designInstanceContentType]⟩,
           ⟨"Pending", COLOR_ORANGE, [designInstanceContentType]⟩,
           ⟨"Rolled back", COLOR_RED, [designInstanceContentType]⟩] ∧
    create_design_instance_statuses
        [("active", "Active"), ("decommissioned", "Decommissioned"),
         ("disabled", "Disabled")]
        [("deployed", "Deployed"), ("pending", "Pending"),
         ("rolled-back", "Rolled back")]
        [⟨"Active", COLOR_GREEN, [designInstanceContentType]⟩,
         ⟨"Decommissioned", COLOR_GREY, [designInstanceContentType]⟩,
         ⟨"Disabled", COLOR_GREY, [designInstanceContentType]⟩,
         ⟨"Deployed", COLOR_GREEN, [designInstanceContentType]⟩,
         ⟨"Pending", COLOR_ORANGE, [designInstanceContentType]⟩,
         ⟨"Rolled back", COLOR_RED, [designInstanceContentType]⟩] =
      .ok [⟨"Active", COLOR_GREEN, [designInstanceContentType]⟩,
           ⟨"Decommissioned", COLOR_GREY, [designInstanceContentType]⟩,
           ⟨"Disabled", COLOR_GREY, [designInstanceContentType]⟩,
           ⟨"Deployed", COLOR_GREEN, [designInstanceContentType]⟩,
           ⟨"Pending", COLOR_ORANGE, [designInstanceContentType]⟩,
           ⟨"Rolled back", COLOR_RED, [designInstanceContentType]⟩] := by
  obtain ⟨db1, h1, -, h4⟩ := C9_statuses_bootstrapped
    [("active", "Active"), ("decommissioned", "Decommissioned"),
     ("disabled", "Disabled")]
    [("deployed", "Deployed"), ("pending", "Pending"),
     ("rolled-back", "Rolled back")] [] (by decide)
  have e1 : create_design_instance_statuses
      [("active", "Active"), ("decommissioned", "Decommissioned"),
       ("disabled", "Disabled")]
      [("deployed", "Deployed"), ("pending", "Pending"),
       ("rolled-back", "Rolled back")] [] =
      .ok [⟨"Active", COLOR_GREEN, [designInstanceContentType]⟩,
           ⟨"Decommissioned", COLOR_GREY, [designInstanceContentType]⟩,
           ⟨"Disabled", COLOR_GREY, [designInstanceContentType]⟩,
           ⟨"Deployed", COLOR_GREEN, [designInstanceContentType]⟩,
           ⟨"Pending", COLOR_ORANGE, [designInstanceContentType]⟩,
           ⟨"Rolled back", COLOR_RED, [designInstanceContentType]⟩] := rfl
  have hdb : db1 = [⟨"Active", COLOR_GREEN, [designInstanceContentType]⟩,
       ⟨"Decommissioned", COLOR_GREY, [designInstanceContentType]⟩,
       ⟨"Disabled", COLOR_GREY, [designInstanceContentType]⟩,
       ⟨"Deployed", COLOR_GREEN, [designInstanceContentType]⟩,
       ⟨"Pending", COLOR_ORANGE, [designInstanceContentType]⟩,
       ⟨"Rolled back", COLOR_RED, [designInstanceContentType]⟩] :=
    Except.ok.inj (h1.symm.trans e1)
  rw [hdb] at h4
  exact ⟨e1, h4⟩

end DesignBuilder
